import Mathlib

/-!
Bloc lead-assignment engine: verification of the specification.

Shallow embedding of the Bloc backend's assignment engine
(`backend/app/services/assignment_engine.py`) together with the webhook
ingestor (`backend/app/routers/webhook.py`) and the manual-reassign
endpoint (`backend/app/routers/leads.py`), over the data model of
`backend/app/models.py`.

Modelling conventions:
* UUIDs are modelled as `String` (the round-robin selector sorts callers
  by `str(c.id)`, i.e. lexicographically on the string form, so the
  string is the semantically relevant view of the id).
* Timestamps are modelled as `Nat`; the business date of an engine
  invocation is an explicit `Nat` parameter (`get_business_date` is a
  single-timezone clock read, captured once per call).
* The SQLAlchemy session is a `DB` record passed and returned
  explicitly; `CallerDailyCounter` rows are a total function defaulting
  to 0 (the Python code treats a missing row as count 0 and creates it
  with `count=0` before incrementing).
* Python truthiness of `lead.state` (`None` and `""` are falsy) is made
  explicit via `stateTruthy`; Python's `x or y` on strings is `pyOrStr`.
* A raised `ValueError` is an `Except.error`; the erroring call returns
  no state because the enclosing transaction is rolled back.
-/

namespace Bloc

/-- Status enum of `models.py` for callers (`active` / `paused`). -/
inductive CallerStatus where
  | active
  | paused
deriving DecidableEq, Repr

/-- Row of the `callers` table: id, display name, optional role, languages,
`daily_limit` (0 = unlimited), status. -/
structure Caller where
  id : String
  name : String
  role : Option String := none
  languages : List String := []
  daily_limit : Nat
  status : CallerStatus
deriving DecidableEq, Repr

/-- Row of the `caller_states` table: a `(caller_id, state)` pair (primary key, so at most
one row per pair). -/
structure CallerStateRow where
  caller_id : String
  state : String
deriving DecidableEq, Repr

/-- Row of the `leads` table.  `timestamp` is `timestamp_from_sheet`; `(phone,
timestamp)` is the uniqueness key.  The JSON `metadata` bag is omitted
(it never influences control flow). -/
structure Lead where
  id : Nat
  name : Option String := none
  phone : String
  timestamp : Nat
  lead_source : Option String := none
  city : Option String := none
  state : Option String := none
  unassigned : Bool := false
deriving DecidableEq, Repr

/-- Status enum for assignments (`assigned` / `unassigned`). -/
inductive LAStatus where
  | assigned
  | unassigned
deriving DecidableEq, Repr

/-- Row of the `lead_assignments` table.  `day` is the business date on which
`assigned_at` falls (rows are created inside the engine invocation whose
business date it is). -/
structure LeadAssignment where
  lead_id : Nat
  caller_id : Option String
  day : Nat
  assignment_reason : String
  status : LAStatus
deriving DecidableEq, Repr

/-- Database state: the six tables of `models.py`.  `pointers` maps a
routing key to the pointer's `last_caller_id` (an existing pointer row
may itself hold `none`); `counters` is the `CallerDailyCounter` table as
a total function `(caller_id, date) ↦ count` with missing rows read
as 0. -/
structure DB where
  callers : List Caller
  callerStates : List CallerStateRow
  leads : List Lead
  assignments : List LeadAssignment
  pointers : List (String × Option String)
  counters : String → Nat → Nat

/-- Python truthiness of `lead.state` (`None` and `""` are falsy). -/
def stateTruthy : Option String → Bool
  | none => false
  | some s => s ≠ ""

/-- Primary-key lookup `db.get(Caller, cid)`. -/
def getCaller (db : DB) (cid : String) : Option Caller :=
  db.callers.find? (fun c => c.id == cid)

/-- Query `select(Caller).where(Caller.status == CallerStatus.ACTIVE)`. -/
def activeCallers (db : DB) : List Caller :=
  db.callers.filter (fun c => c.status == CallerStatus.active)

/-- Active callers joined to a `CallerState` row with `state = s`
(`_eligible_callers_for_state`, state-specific query). -/
def stateMatched (db : DB) (s : String) : List Caller :=
  (activeCallers db).filter
    (fun c => db.callerStates.any (fun r => r.caller_id == c.id && r.state == s))

/-- Embedding of `_eligible_callers_for_state`: when the lead's state is truthy and
some active caller is joined to it, return those; otherwise all active
callers. -/
def eligibleCallersForState (db : DB) (state : Option String) : List Caller :=
  match state with
  | none => activeCallers db
  | some s =>
    if s = "" then activeCallers db
    else
      let callers := stateMatched db s
      if callers.isEmpty then activeCallers db else callers

/-- Embedding of `_apply_daily_cap_filter`: keep `c` when `c.daily_limit == 0`
(unlimited) or today's counter is strictly below the limit (a missing
counter row reads as 0). -/
def applyDailyCapFilter (db : DB) (callers : List Caller) (day : Nat) : List Caller :=
  callers.filter (fun c => c.daily_limit == 0 || db.counters c.id day < c.daily_limit)

/-- The order the selector sorts by: `str(c.id)` ascending. -/
def callerLe (a b : Caller) : Prop := a.id ≤ b.id

instance : DecidableRel callerLe := fun a b => inferInstanceAs (Decidable (a.id ≤ b.id))

instance : IsTotal Caller callerLe := ⟨fun a b => le_total a.id b.id⟩

instance : IsTrans Caller callerLe := ⟨fun _ _ _ h h' => le_trans h h'⟩

/-- Embedding of `sorted(eligible, key=lambda c: str(c.id))`: a stable ascending sort
on the id string. -/
def sortById (l : List Caller) : List Caller :=
  l.insertionSort callerLe

/-- Lookup `db.get(RoundRobinPointer, key)`, flattened to the stored
`last_caller_id` (outer `none` = no pointer row). -/
def lookupPtr (ps : List (String × Option String)) (k : String) : Option (Option String) :=
  (ps.find? (fun p => p.1 == k)).map (fun p => p.2)

/-- Write `last_caller_id ← v` for key `k`, creating the row if absent. -/
def setPtr (ps : List (String × Option String)) (k : String) (v : Option String) :
    List (String × Option String) :=
  if ps.any (fun p => p.1 == k) then
    ps.map (fun p => if p.1 == k then (k, v) else p)
  else
    ps ++ [(k, v)]

/-- Embedding of `_next_round_robin_caller`: load-or-create the pointer for `key`,
sort the eligible list by id string, pick index 0 when there is no last
value or the last value is gone, else index `(i+1) % n`, and stage
`last_caller_id ← chosen.id`.  Returns the chosen caller (`none` iff the
eligible list is empty) and the updated state. -/
def nextRoundRobinCaller (db : DB) (key : String) (eligible : List Caller) :
    Option Caller × DB :=
  match sortById eligible with
  | [] => (none, db)
  | o :: os =>
    let ordered := o :: os
    let last : Option String := (lookupPtr db.pointers key).getD none
    let chosen :=
      match last with
      | none => o
      | some lastId =>
        match ordered.findIdx? (fun c => c.id == lastId) with
        | some i => ordered.getD ((i + 1) % ordered.length) o
        | none => o
    (some chosen, { db with pointers := setPtr db.pointers key (some chosen.id) })

/-- Computation `bool(lead.state and <count of CallerState rows with state ==
lead.state>)` — note: the count is over all `CallerState` rows,
regardless of the owning caller's status. -/
def hasStateSpecific (db : DB) (state : Option String) : Bool :=
  stateTruthy state && db.callerStates.any (fun r => some r.state == state)

/-- Routing key: state-scoped when the lead's state is truthy and some
CallerState row carries it, else global. -/
def routingKey (db : DB) (state : Option String) : String :=
  if hasStateSpecific db state then "state:" ++ state.getD "" else "global"

/-- Python `s.startswith(pre)` (kernel-computable form of
`String.startsWith`). -/
def strStartsWith (s pre : String) : Bool :=
  pre.data.isPrefixOf s.data

/-- Python `s or default` for an optional string (`None` and `""` are
falsy). -/
def pyOrStr : Option String → String → String
  | none, d => d
  | some s, d => if s = "" then d else s

/-- Tail of `assign_lead` on the assigned path: load-or-insert the
`(chosen.id, business_date)` counter, increment it, and insert an
`assigned` `LeadAssignment` row. -/
def commitAssignment (db : DB) (lead : Lead) (chosen : Caller) (reason : String)
    (day : Nat) : DB × LeadAssignment :=
  let a : LeadAssignment :=
    { lead_id := lead.id, caller_id := some chosen.id, day := day,
      assignment_reason := reason, status := LAStatus.assigned }
  ({ db with
      counters := fun cid d =>
        if cid = chosen.id ∧ d = day then db.counters cid d + 1 else db.counters cid d,
      assignments := db.assignments ++ [a] }, a)

/-- Staging of `lead.unassigned = True` on the session. -/
def markUnassigned (ls : List Lead) (lid : Nat) : List Lead :=
  ls.map (fun l => if l.id == lid then { l with unassigned := true } else l)

/-- Unassigned outcome of `assign_lead`: flag the lead and insert an
`unassigned` assignment row with no caller; counters untouched. -/
def unassignedOutcome (db : DB) (lead : Lead) (reason : String) (day : Nat) :
    DB × LeadAssignment :=
  let a : LeadAssignment :=
    { lead_id := lead.id, caller_id := none, day := day,
      assignment_reason := reason, status := LAStatus.unassigned }
  ({ db with
      leads := markUnassigned db.leads lead.id,
      assignments := db.assignments ++ [a] }, a)

/-- Embedding of `assign_lead`: manual path (forced caller; `ValueError` when the
caller is missing or not active), or automatic path (eligibility →
daily-cap filter → round-robin selection → counter + assignment
write). -/
def assignLead (db : DB) (lead : Lead) (forcedCallerId : Option String)
    (reasonOverride : Option String) (day : Nat) :
    Except String (DB × LeadAssignment) :=
  match forcedCallerId with
  | some cid =>
    match getCaller db cid with
    | none => Except.error "Forced caller is not active or does not exist"
    | some caller =>
      if caller.status ≠ CallerStatus.active then
        Except.error "Forced caller is not active or does not exist"
      else
        Except.ok (commitAssignment db lead caller
          (pyOrStr reasonOverride "manual_reassign") day)
  | none =>
    let eligible0 := eligibleCallersForState db lead.state
    let eligible := applyDailyCapFilter db eligible0 day
    if eligible.isEmpty then
      Except.ok (unassignedOutcome db lead "unassigned_cap_reached" day)
    else
      let key := routingKey db lead.state
      match nextRoundRobinCaller db key eligible with
      | (none, db1) =>
        Except.ok (unassignedOutcome db1 lead "unassigned_no_eligible" day)
      | (some chosen, db1) =>
        Except.ok (commitAssignment db1 lead chosen
          (pyOrStr reasonOverride
            (if strStartsWith key "state:" then "state_round_robin" else "global_round_robin"))
          day)

/-- Webhook payload (`LeadWebhookIn`). -/
structure WebhookPayload where
  name : Option String := none
  phone : String
  timestamp : Nat
  lead_source : Option String := none
  city : Option String := none
  state : Option String := none
deriving DecidableEq, Repr

/-- The ingestor's duplicate lookup: the lead with this `(phone,
timestamp)` pair, if any. -/
def findLeadByKey (db : DB) (phone : String) (ts : Nat) : Option Lead :=
  db.leads.find? (fun l => l.phone == phone && l.timestamp == ts)

/-- Ingestor half of `lead_webhook`: try to insert the lead; on a
`(phone, timestamp)` uniqueness violation roll back and reuse the
existing lead.  `newId` models the fresh UUID of a newly created
lead. -/
def ingestLead (db : DB) (p : WebhookPayload) (newId : Nat) : DB × Lead :=
  match findLeadByKey db p.phone p.timestamp with
  | some existing => (db, existing)
  | none =>
    let l : Lead :=
      { id := newId, name := p.name, phone := p.phone, timestamp := p.timestamp,
        lead_source := p.lead_source, city := p.city, state := p.state,
        unassigned := false }
    ({ db with leads := db.leads ++ [l] }, l)

/-- Embedding of `lead_webhook` (minus HTTP/broadcast): ingest the
lead, then run `assign_lead` on it and commit.  The `Except.error`
fallback is unreachable: with no forced caller `assign_lead` never
raises. -/
def webhookOp (db : DB) (p : WebhookPayload) (newId : Nat) (day : Nat) :
    DB × LeadAssignment :=
  match assignLead (ingestLead db p newId).1 (ingestLead db p newId).2 none none day with
  | Except.ok r => r
  | Except.error _ =>
    ((ingestLead db p newId).1,
      { lead_id := (ingestLead db p newId).2.id, caller_id := none, day := day,
        assignment_reason := "", status := LAStatus.unassigned })

/-- Embedding of `reassign_lead` (minus HTTP/broadcast): 404 when the lead is
missing; otherwise `assign_lead` with the request's `caller_id` and —
unconditionally — `reason_override="manual_reassign"`.  A raised
`ValueError` propagates before `db.commit()`, so the state is
unchanged. -/
def reassignOp (db : DB) (leadId : Nat) (callerId : Option String) (day : Nat) : DB :=
  match db.leads.find? (fun l => l.id == leadId) with
  | none => db
  | some lead =>
    match assignLead db lead callerId (some "manual_reassign") day with
    | Except.ok (db', _) => db'
    | Except.error _ => db

/-! Helper lemmas about the sort and the selector. -/

/-- An index returned by `findIdx?` is in range. -/
theorem findIdx?_lt_length {α : Type _} (p : α → Bool) :
    ∀ (l : List α) (i : Nat), l.findIdx? p = some i → i < l.length := by
  intro l
  induction l with
  | nil => intro i h; simp [List.findIdx?] at h
  | cons x xs ih =>
    intro i h
    rw [List.findIdx?_cons] at h
    by_cases hp : p x = true
    · simp [hp] at h
      simp [List.length_cons]
      omega
    · simp [hp] at h
      obtain ⟨a, ha, hai⟩ := h
      have := ih a ha
      simp [List.length_cons]
      omega

/-- The sorted view is a permutation of the input. -/
theorem sortById_perm (l : List Caller) : List.Perm (sortById l) l :=
  List.perm_insertionSort callerLe l

/-- The sorted view is sorted by the id string. -/
theorem sortById_sorted (l : List Caller) : List.Sorted callerLe (sortById l) :=
  List.sorted_insertionSort callerLe l

/-- Sorting returns the empty list exactly on the empty list. -/
theorem sortById_eq_nil_iff (l : List Caller) : sortById l = [] ↔ l = [] := by
  constructor
  · intro h
    have := (sortById_perm l).length_eq
    rw [h] at this
    exact List.length_eq_zero.mp this.symm
  · intro h; subst h; rfl

/-- On a non-empty eligible list the selector always chooses a caller,
the chosen caller comes from the eligible list, and the only state
change is the pointer write `last_caller_id ← chosen.id`. -/
theorem nextRoundRobinCaller_of_ne_nil (db : DB) (key : String) (eligible : List Caller)
    (h : eligible ≠ []) :
    ∃ chosen : Caller,
      nextRoundRobinCaller db key eligible =
        (some chosen, { db with pointers := setPtr db.pointers key (some chosen.id) }) ∧
      chosen ∈ eligible := by
  have hs : sortById eligible ≠ [] := fun hnil => h ((sortById_eq_nil_iff eligible).mp hnil)
  obtain ⟨o, os, heq⟩ := List.exists_cons_of_ne_nil hs
  have hmem_sorted : ∀ c, c ∈ (o :: os) → c ∈ eligible := by
    intro c hc
    rw [← heq] at hc
    exact (sortById_perm eligible).subset hc
  unfold nextRoundRobinCaller
  rw [heq]
  dsimp only
  refine ⟨_, rfl, hmem_sorted _ ?_⟩
  cases (lookupPtr db.pointers key).getD none with
  | none => exact List.mem_cons_self o os
  | some lastId =>
    dsimp only
    cases (o :: os).findIdx? (fun c => c.id == lastId) with
    | none => exact List.mem_cons_self o os
    | some i =>
      dsimp only
      have hlen : (i + 1) % (o :: os).length < (o :: os).length :=
        Nat.mod_lt _ (by simp)
      rw [List.getD_eq_getElem?_getD, List.getElem?_eq_getElem hlen]
      exact List.getElem_mem hlen

/-! Structural lemmas about `assignLead` and its building blocks. -/

/-- Fields of the state after `commitAssignment`: only `counters` and
`assignments` change. -/
theorem commitAssignment_fields (db : DB) (lead : Lead) (c : Caller) (r : String) (day : Nat) :
    (commitAssignment db lead c r day).1.assignments =
        db.assignments ++ [(commitAssignment db lead c r day).2] ∧
    (commitAssignment db lead c r day).1.leads = db.leads ∧
    (commitAssignment db lead c r day).1.pointers = db.pointers ∧
    (commitAssignment db lead c r day).1.callers = db.callers ∧
    (commitAssignment db lead c r day).2 =
      { lead_id := lead.id, caller_id := some c.id, day := day,
        assignment_reason := r, status := LAStatus.assigned } :=
  ⟨rfl, rfl, rfl, rfl, rfl⟩

/-- Fields of the state after an unassigned outcome: only `leads`
(the `unassigned` flag) and `assignments` change; counters and pointers
are untouched. -/
theorem unassignedOutcome_fields (db : DB) (lead : Lead) (r : String) (day : Nat) :
    (unassignedOutcome db lead r day).1.assignments =
        db.assignments ++ [(unassignedOutcome db lead r day).2] ∧
    (unassignedOutcome db lead r day).1.counters = db.counters ∧
    (unassignedOutcome db lead r day).1.pointers = db.pointers ∧
    (unassignedOutcome db lead r day).1.leads.length = db.leads.length ∧
    (unassignedOutcome db lead r day).2 =
      { lead_id := lead.id, caller_id := none, day := day,
        assignment_reason := r, status := LAStatus.unassigned } :=
  ⟨rfl, rfl, rfl, by simp [unassignedOutcome, markUnassigned], rfl⟩

/-- Manual path, missing caller: `assign_lead` raises. -/
theorem assignLead_forced_missing (db : DB) (lead : Lead) (cid : String)
    (ro : Option String) (day : Nat) (h : getCaller db cid = none) :
    assignLead db lead (some cid) ro day =
      Except.error "Forced caller is not active or does not exist" := by
  simp [assignLead, h]

/-- Manual path, non-active caller: `assign_lead` raises. -/
theorem assignLead_forced_inactive (db : DB) (lead : Lead) (cid : String)
    (ro : Option String) (day : Nat) (c : Caller) (h : getCaller db cid = some c)
    (hst : c.status ≠ CallerStatus.active) :
    assignLead db lead (some cid) ro day =
      Except.error "Forced caller is not active or does not exist" := by
  simp [assignLead, h, hst]

/-- Manual path, active caller: commit with reason
`reason_override or "manual_reassign"`; eligibility, cap filter and
selector are skipped. -/
theorem assignLead_forced_active (db : DB) (lead : Lead) (cid : String)
    (ro : Option String) (day : Nat) (c : Caller) (h : getCaller db cid = some c)
    (hst : c.status = CallerStatus.active) :
    assignLead db lead (some cid) ro day =
      Except.ok (commitAssignment db lead c (pyOrStr ro "manual_reassign") day) := by
  simp [assignLead, h, hst]

/-- Automatic path with nothing surviving the cap filter: the one and
only unassigned outcome the code can produce, reason
`unassigned_cap_reached`. -/
theorem assignLead_auto_empty (db : DB) (lead : Lead) (ro : Option String) (day : Nat)
    (h : applyDailyCapFilter db (eligibleCallersForState db lead.state) day = []) :
    assignLead db lead none ro day =
      Except.ok (unassignedOutcome db lead "unassigned_cap_reached" day) := by
  simp [assignLead, h]

/-- Automatic path with a non-empty post-cap eligibility list: the
selector picks a caller and the result is a commit with the round-robin
reason (or the override). -/
theorem assignLead_auto_nonempty (db : DB) (lead : Lead) (ro : Option String) (day : Nat)
    (hne : applyDailyCapFilter db (eligibleCallersForState db lead.state) day ≠ []) :
    ∃ chosen : Caller,
      nextRoundRobinCaller db (routingKey db lead.state)
          (applyDailyCapFilter db (eligibleCallersForState db lead.state) day) =
        (some chosen,
          { db with pointers :=
              setPtr db.pointers (routingKey db lead.state) (some chosen.id) }) ∧
      chosen ∈ applyDailyCapFilter db (eligibleCallersForState db lead.state) day ∧
      assignLead db lead none ro day =
        Except.ok (commitAssignment
          { db with pointers :=
              setPtr db.pointers (routingKey db lead.state) (some chosen.id) }
          lead chosen
          (pyOrStr ro (if strStartsWith (routingKey db lead.state) "state:"
                       then "state_round_robin" else "global_round_robin")) day) := by
  obtain ⟨c, hc, hmem⟩ :=
    nextRoundRobinCaller_of_ne_nil db (routingKey db lead.state) _ hne
  refine ⟨c, hc, hmem, ?_⟩
  have hie : (applyDailyCapFilter db (eligibleCallersForState db lead.state) day).isEmpty
      = false := by
    cases hcap : applyDailyCapFilter db (eligibleCallersForState db lead.state) day with
    | nil => exact absurd hcap hne
    | cons a l => rfl
  simp only [assignLead, hie]
  rw [hc]
  rfl

/-- With no forced caller `assign_lead` never raises. -/
theorem assignLead_none_ok (db : DB) (lead : Lead) (ro : Option String) (day : Nat) :
    ∃ r, assignLead db lead none ro day = Except.ok r := by
  by_cases hcap : applyDailyCapFilter db (eligibleCallersForState db lead.state) day = []
  · exact ⟨_, assignLead_auto_empty db lead ro day hcap⟩
  · obtain ⟨c, _, _, heq⟩ := assignLead_auto_nonempty db lead ro day hcap
    exact ⟨_, heq⟩

/-! The counter invariant and the reachable-state machine. -/

/-- Number of `lead_assignments` rows with `status = assigned`, the
given caller, and an `assigned_at` on the given business date. -/
def countAssigned (as : List LeadAssignment) (cid : String) (d : Nat) : Nat :=
  (as.filter (fun a =>
    a.status == LAStatus.assigned && a.caller_id == some cid && a.day == d)).length

/-- Every daily counter equals the number of matching assigned rows. -/
def CounterInv (db : DB) : Prop :=
  ∀ cid d, db.counters cid d = countAssigned db.assignments cid d

/-- Appending one row changes `countAssigned` by 1 exactly when the row
matches. -/
theorem countAssigned_append (as : List LeadAssignment) (a : LeadAssignment)
    (cid : String) (d : Nat) :
    countAssigned (as ++ [a]) cid d =
      countAssigned as cid d +
        (if a.status = LAStatus.assigned ∧ a.caller_id = some cid ∧ a.day = d
         then 1 else 0) := by
  simp only [countAssigned, List.filter_append, List.length_append]
  congr 1
  by_cases h1 : a.status = LAStatus.assigned <;>
    by_cases h2 : a.caller_id = some cid <;>
    by_cases h3 : a.day = d <;>
    simp [h1, h2, h3]

/-- `commitAssignment` preserves the counter invariant: the appended row
and the incremented counter match. -/
theorem counterInv_commit (db : DB) (lead : Lead) (c : Caller) (r : String) (day : Nat)
    (h : CounterInv db) : CounterInv (commitAssignment db lead c r day).1 := by
  intro cid d
  have ha : (commitAssignment db lead c r day).1.assignments =
      db.assignments ++ [(commitAssignment db lead c r day).2] := rfl
  rw [ha, countAssigned_append]
  have hc : (commitAssignment db lead c r day).1.counters cid d =
      if cid = c.id ∧ d = day then db.counters cid d + 1 else db.counters cid d := rfl
  rw [hc, h cid d]
  have hrow : (commitAssignment db lead c r day).2 =
      { lead_id := lead.id, caller_id := some c.id, day := day,
        assignment_reason := r, status := LAStatus.assigned } := rfl
  rw [hrow]
  by_cases hm : cid = c.id ∧ d = day
  · obtain ⟨hm1, hm2⟩ := hm
    subst hm1; subst hm2
    simp
  · rw [if_neg hm,
        if_neg (fun hcon => hm ⟨Option.some.inj hcon.2.1.symm, hcon.2.2.symm⟩)]
    simp

/-- An unassigned outcome preserves the counter invariant: counters are
untouched and the appended row has `status = unassigned`. -/
theorem counterInv_unassigned (db : DB) (lead : Lead) (r : String) (day : Nat)
    (h : CounterInv db) : CounterInv (unassignedOutcome db lead r day).1 := by
  intro cid d
  have ha : (unassignedOutcome db lead r day).1.assignments =
      db.assignments ++ [(unassignedOutcome db lead r day).2] := rfl
  rw [ha, countAssigned_append]
  have hrow : (unassignedOutcome db lead r day).2.status = LAStatus.unassigned := rfl
  rw [if_neg (by rw [hrow]; simp)]
  exact h cid d

/-- Any successful `assign_lead` call preserves the counter invariant. -/
theorem counterInv_assignLead (db : DB) (lead : Lead) (f ro : Option String) (day : Nat)
    (db' : DB) (a : LeadAssignment) (h : CounterInv db)
    (hok : assignLead db lead f ro day = Except.ok (db', a)) : CounterInv db' := by
  cases f with
  | some cid =>
    cases hg : getCaller db cid with
    | none =>
      rw [assignLead_forced_missing db lead cid ro day hg] at hok
      simp at hok
    | some c =>
      by_cases hst : c.status = CallerStatus.active
      · rw [assignLead_forced_active db lead cid ro day c hg hst] at hok
        have h1 : (commitAssignment db lead c (pyOrStr ro "manual_reassign") day).1 = db' :=
          congrArg Prod.fst (Except.ok.inj hok)
        rw [← h1]
        exact counterInv_commit db lead c _ day h
      · rw [assignLead_forced_inactive db lead cid ro day c hg hst] at hok
        simp at hok
  | none =>
    by_cases hcap : applyDailyCapFilter db (eligibleCallersForState db lead.state) day = []
    · rw [assignLead_auto_empty db lead ro day hcap] at hok
      have h1 : (unassignedOutcome db lead "unassigned_cap_reached" day).1 = db' :=
        congrArg Prod.fst (Except.ok.inj hok)
      rw [← h1]
      exact counterInv_unassigned db lead _ day h
    · obtain ⟨c, _, _, heq⟩ := assignLead_auto_nonempty db lead ro day hcap
      rw [heq] at hok
      have h1 := congrArg Prod.fst (Except.ok.inj hok)
      rw [show db' = _ from h1.symm]
      exact counterInv_commit _ lead c _ day (fun cid d => h cid d)

/-- One externally triggered operation: a webhook submission or a
manual/automatic reassign request. -/
inductive Step : DB → DB → Prop where
  | webhook (db : DB) (p : WebhookPayload) (newId day : Nat) :
      Step db (webhookOp db p newId day).1
  | reassign (db : DB) (leadId : Nat) (callerId : Option String) (day : Nat) :
      Step db (reassignOp db leadId callerId day)

/-- States reachable from `init` by any sequence of webhook and
reassign calls. -/
inductive Reachable (init : DB) : DB → Prop where
  | refl : Reachable init init
  | step {db db' : DB} : Reachable init db → Step db db' → Reachable init db'

/-- The ingestor changes neither counters nor assignments. -/
theorem ingestLead_fields (db : DB) (p : WebhookPayload) (newId : Nat) :
    (ingestLead db p newId).1.counters = db.counters ∧
    (ingestLead db p newId).1.assignments = db.assignments ∧
    (ingestLead db p newId).1.callers = db.callers ∧
    (ingestLead db p newId).1.pointers = db.pointers := by
  unfold ingestLead
  cases findLeadByKey db p.phone p.timestamp with
  | some existing => exact ⟨rfl, rfl, rfl, rfl⟩
  | none => exact ⟨rfl, rfl, rfl, rfl⟩

/-- A webhook call preserves the counter invariant. -/
theorem counterInv_webhookOp (db : DB) (p : WebhookPayload) (newId day : Nat)
    (h : CounterInv db) : CounterInv (webhookOp db p newId day).1 := by
  have hIngest : CounterInv (ingestLead db p newId).1 := by
    intro cid d
    rw [(ingestLead_fields db p newId).1, (ingestLead_fields db p newId).2.1]
    exact h cid d
  unfold webhookOp
  obtain ⟨r, hr⟩ :=
    assignLead_none_ok (ingestLead db p newId).1 (ingestLead db p newId).2 none day
  rw [hr]
  exact counterInv_assignLead _ _ none none day r.1 r.2 hIngest hr

/-- A reassign call preserves the counter invariant. -/
theorem counterInv_reassignOp (db : DB) (leadId : Nat) (callerId : Option String)
    (day : Nat) (h : CounterInv db) : CounterInv (reassignOp db leadId callerId day) := by
  unfold reassignOp
  cases db.leads.find? (fun l => l.id == leadId) with
  | none => exact h
  | some lead =>
    dsimp only
    cases hok : assignLead db lead callerId (some "manual_reassign") day with
    | ok r => exact counterInv_assignLead db lead callerId _ day r.1 r.2 h hok
    | error e => exact h

/-- Every step preserves the counter invariant. -/
theorem counterInv_step (db db' : DB) (h : CounterInv db) (hs : Step db db') :
    CounterInv db' := by
  cases hs with
  | webhook p newId day => exact counterInv_webhookOp db p newId day h
  | reassign leadId callerId day => exact counterInv_reassignOp db leadId callerId day h

/-! Claim theorems. -/

/-- C8: in every state reachable by any sequence of webhook and
reassign calls (from a state satisfying the invariant, e.g. a fresh
database), each daily counter equals the number of `assigned`
`LeadAssignment` rows with the counter's caller and business date. -/
theorem C8_counter_matches_assignments (init db : DB)
    (hinit : CounterInv init) (hr : Reachable init db) : CounterInv db := by
  induction hr with
  | refl => exact hinit
  | step _ hstep ih => exact counterInv_step _ _ ih hstep

/-- Fresh single-caller database used by several witnesses. -/
def w8Init : DB :=
  { callers := [{ id := "c1", name := "Cara", daily_limit := 0, status := CallerStatus.active }],
    callerStates := [], leads := [], assignments := [], pointers := [],
    counters := fun _ _ => 0 }

/-- Webhook payload used by several witnesses. -/
def w8Payload : WebhookPayload := { phone := "5551234567", timestamp := 1 }

/-- Witness for C8: the invariant holds after one webhook step from a
fresh database. -/
theorem C8_counter_matches_assignments_witness :
    (webhookOp w8Init w8Payload 1 0).1.counters "c1" 0 =
      countAssigned (webhookOp w8Init w8Payload 1 0).1.assignments "c1" 0 :=
  C8_counter_matches_assignments w8Init (webhookOp w8Init w8Payload 1 0).1
    (fun _ _ => rfl)
    (Reachable.step Reachable.refl (Step.webhook w8Init w8Payload 1 0)) "c1" 0

/-- C9: `assign_lead` raises exactly when a forced caller id is
supplied that is missing or non-active; with no forced caller and an
empty post-cap eligibility list it does not raise and returns an
unassigned assignment (`caller_id` null). -/
theorem C9_raises_iff_invalid_forced (db : DB) (lead : Lead) (forced ro : Option String)
    (day : Nat) :
    ((∃ e, assignLead db lead forced ro day = Except.error e) ↔
      (∃ cid, forced = some cid ∧
        ∀ c, getCaller db cid = some c → c.status ≠ CallerStatus.active)) ∧
    (forced = none →
      applyDailyCapFilter db (eligibleCallersForState db lead.state) day = [] →
      ∃ db2, assignLead db lead forced ro day =
        Except.ok (db2,
          { lead_id := lead.id, caller_id := none, day := day,
            assignment_reason := "unassigned_cap_reached",
            status := LAStatus.unassigned })) := by
  constructor
  · constructor
    · rintro ⟨e, he⟩
      cases forced with
      | none =>
        obtain ⟨r, hr⟩ := assignLead_none_ok db lead ro day
        rw [hr] at he
        exact absurd he (by simp)
      | some cid =>
        refine ⟨cid, rfl, ?_⟩
        intro c hc hst
        rw [assignLead_forced_active db lead cid ro day c hc hst] at he
        exact absurd he (by simp)
    · rintro ⟨cid, rfl, hbad⟩
      cases hg : getCaller db cid with
      | none => exact ⟨_, assignLead_forced_missing db lead cid ro day hg⟩
      | some c => exact ⟨_, assignLead_forced_inactive db lead cid ro day c hg (hbad c hg)⟩
  · rintro rfl hcap
    refine ⟨(unassignedOutcome db lead "unassigned_cap_reached" day).1, ?_⟩
    rw [assignLead_auto_empty db lead ro day hcap]
    rfl

/-- Database with a single paused caller, used for C9's witness and
C2's counterexample. -/
def pausedDb : DB :=
  { callers := [{ id := "P", name := "Paula", daily_limit := 0, status := CallerStatus.paused }],
    callerStates := [], leads := [{ id := 7, phone := "1", timestamp := 1 }],
    assignments := [], pointers := [], counters := fun _ _ => 0 }

/-- Lead already present in `pausedDb`. -/
def pausedLead : Lead := { id := 7, phone := "1", timestamp := 1 }

/-- Witness for C9: with no forced caller and nothing eligible, the
engine returns an unassigned assignment instead of raising. -/
theorem C9_raises_iff_invalid_forced_witness :
    ∃ db2, assignLead pausedDb pausedLead none none 0 =
      Except.ok (db2,
        { lead_id := 7, caller_id := none, day := 0,
          assignment_reason := "unassigned_cap_reached",
          status := LAStatus.unassigned }) :=
  (C9_raises_iff_invalid_forced pausedDb pausedLead none none 0).2 rfl (by decide)

/-- C10: a manual (forced-caller) assignment leaves every round-robin
pointer unchanged: the manual path never invokes the selector, which is
the only place pointers are written. -/
theorem C10_manual_leaves_pointers (db : DB) (lead : Lead) (cid : String)
    (ro : Option String) (day : Nat) (db' : DB) (a : LeadAssignment)
    (h : assignLead db lead (some cid) ro day = Except.ok (db', a)) :
    db'.pointers = db.pointers := by
  cases hg : getCaller db cid with
  | none =>
    rw [assignLead_forced_missing db lead cid ro day hg] at h
    exact absurd h (by simp)
  | some c =>
    by_cases hst : c.status = CallerStatus.active
    · rw [assignLead_forced_active db lead cid ro day c hg hst] at h
      have h1 : (commitAssignment db lead c (pyOrStr ro "manual_reassign") day).1 = db' :=
        congrArg Prod.fst (Except.ok.inj h)
      rw [← h1]
      rfl
    · rw [assignLead_forced_inactive db lead cid ro day c hg hst] at h
      exact absurd h (by simp)

/-- Database with two active callers and a pre-seeded pointer, used for
C10's witness. -/
def w10Db : DB :=
  { callers := [{ id := "A", name := "Ann", daily_limit := 0, status := CallerStatus.active },
                { id := "B", name := "Bob", daily_limit := 0, status := CallerStatus.active }],
    callerStates := [], leads := [{ id := 3, phone := "2", timestamp := 2 }],
    assignments := [], pointers := [("global", some "A")], counters := fun _ _ => 0 }

/-- Lead already present in `w10Db`. -/
def w10Lead : Lead := { id := 3, phone := "2", timestamp := 2 }

/-- Caller record forced by C10's witness. -/
def w10B : Caller := { id := "B", name := "Bob", daily_limit := 0, status := CallerStatus.active }

/-- Witness for C10: forcing caller B leaves the pre-seeded global
pointer untouched. -/
theorem C10_manual_leaves_pointers_witness :
    (commitAssignment w10Db w10Lead w10B (pyOrStr none "manual_reassign") 0).1.pointers =
      w10Db.pointers :=
  C10_manual_leaves_pointers w10Db w10Lead "B" none 0
    (commitAssignment w10Db w10Lead w10B (pyOrStr none "manual_reassign") 0).1
    (commitAssignment w10Db w10Lead w10B (pyOrStr none "manual_reassign") 0).2 rfl

/-! Membership characterizations used by C4, C5, C7. -/

/-- Membership in the active-caller query. -/
theorem mem_activeCallers (db : DB) (c : Caller) :
    c ∈ activeCallers db ↔ c ∈ db.callers ∧ c.status = CallerStatus.active := by
  simp [activeCallers, List.mem_filter]

/-- Membership in the state-matched query: active and joined to a
CallerState row with the given state. -/
theorem mem_stateMatched (db : DB) (s : String) (c : Caller) :
    c ∈ stateMatched db s ↔
      c ∈ db.callers ∧ c.status = CallerStatus.active ∧
        ∃ r ∈ db.callerStates, r.caller_id = c.id ∧ r.state = s := by
  simp [stateMatched, List.mem_filter, mem_activeCallers, List.any_eq_true, and_assoc]

/-- Membership in the cap filter's output. -/
theorem mem_applyDailyCapFilter (db : DB) (cs : List Caller) (day : Nat) (c : Caller) :
    c ∈ applyDailyCapFilter db cs day ↔
      c ∈ cs ∧ (c.daily_limit = 0 ∨ db.counters c.id day < c.daily_limit) := by
  simp [applyDailyCapFilter, List.mem_filter]

/-- Every eligibility candidate is a stored caller. -/
theorem eligible_subset_callers (db : DB) (st : Option String) (c : Caller)
    (h : c ∈ eligibleCallersForState db st) : c ∈ db.callers := by
  unfold eligibleCallersForState at h
  cases st with
  | none => exact ((mem_activeCallers db c).mp h).1
  | some s =>
    dsimp only at h
    by_cases hs : s = ""
    · rw [if_pos hs] at h
      exact ((mem_activeCallers db c).mp h).1
    · rw [if_neg hs] at h
      by_cases he : (stateMatched db s).isEmpty
      · rw [if_pos he] at h
        exact ((mem_activeCallers db c).mp h).1
      · rw [if_neg he] at h
        exact ((mem_stateMatched db s c).mp h).1

/-- C7: the cap filter never drops an unlimited (`daily_limit = 0`)
caller, and an automatic assignment never pushes a limited caller's
daily counter past its `daily_limit`. -/
theorem C7_daily_cap_never_exceeded (db : DB) (day : Nat) :
    (∀ (callers : List Caller) (c : Caller), c ∈ callers → c.daily_limit = 0 →
        c ∈ applyDailyCapFilter db callers day) ∧
    (∀ (lead : Lead) (ro : Option String) (db' : DB) (a : LeadAssignment)
        (c : Caller) (cid : String),
      (db.callers.map (fun x => x.id)).Nodup →
      assignLead db lead none ro day = Except.ok (db', a) →
      a.caller_id = some cid → c ∈ db.callers → c.id = cid →
      0 < c.daily_limit →
      db'.counters cid day ≤ c.daily_limit) := by
  constructor
  · intro callers c hmem hzero
    exact (mem_applyDailyCapFilter db callers day c).mpr ⟨hmem, Or.inl hzero⟩
  · intro lead ro db' a c cid hnodup hok hcid hc hcideq hpos
    by_cases hcap : applyDailyCapFilter db (eligibleCallersForState db lead.state) day = []
    · rw [assignLead_auto_empty db lead ro day hcap] at hok
      have h2 : (unassignedOutcome db lead "unassigned_cap_reached" day).2 = a :=
        congrArg Prod.snd (Except.ok.inj hok)
      rw [← h2] at hcid
      exact absurd hcid (by simp [unassignedOutcome])
    · obtain ⟨chosen, _, hmem, heq⟩ := assignLead_auto_nonempty db lead ro day hcap
      rw [heq] at hok
      have hpair := (Except.ok.inj hok).symm
      have hacid : a.caller_id = some chosen.id :=
        congrArg (fun x => (Prod.snd x).caller_id) hpair
      have hcnt0 : db'.counters cid day =
          if cid = chosen.id ∧ day = day then db.counters cid day + 1
          else db.counters cid day :=
        congrArg (fun x => (Prod.fst x).counters cid day) hpair
      obtain ⟨hmemcap, hunder⟩ := (mem_applyDailyCapFilter db _ day chosen).mp hmem
      have hchosen_callers : chosen ∈ db.callers :=
        eligible_subset_callers db lead.state chosen hmemcap
      have hideq : chosen.id = cid := by
        rw [hacid] at hcid
        exact Option.some.inj hcid
      have hceq : c = chosen :=
        List.inj_on_of_nodup_map hnodup hc hchosen_callers (by rw [hcideq, hideq])
      have hlt : db.counters chosen.id day < chosen.daily_limit := by
        cases hunder with
        | inl hzero =>
          rw [hceq] at hpos
          omega
        | inr h => exact h
      have hcnt : db'.counters cid day = db.counters cid day + 1 := by
        rw [hcnt0, if_pos ⟨hideq.symm, rfl⟩]
      rw [hcnt, hceq, ← hideq]
      omega

/-- Database for C7's witness: one active caller with `daily_limit = 1`
and a zero counter. -/
def w7Db : DB :=
  { callers := [{ id := "A", name := "Ann", daily_limit := 1, status := CallerStatus.active }],
    callerStates := [], leads := [{ id := 5, phone := "3", timestamp := 3 }],
    assignments := [], pointers := [], counters := fun _ _ => 0 }

/-- Lead already present in `w7Db`. -/
def w7Lead : Lead := { id := 5, phone := "3", timestamp := 3 }

/-- The caller of `w7Db`. -/
def w7A : Caller := { id := "A", name := "Ann", daily_limit := 1, status := CallerStatus.active }

/-- Witness for C7: after the assignment the counter stays at the
limit. -/
theorem C7_daily_cap_never_exceeded_witness :
    (commitAssignment { w7Db with pointers := setPtr w7Db.pointers "global" (some "A") }
        w7Lead w7A "global_round_robin" 0).1.counters "A" 0 ≤ 1 :=
  (C7_daily_cap_never_exceeded w7Db 0).2 w7Lead none
    (commitAssignment { w7Db with pointers := setPtr w7Db.pointers "global" (some "A") }
        w7Lead w7A "global_round_robin" 0).1
    (commitAssignment { w7Db with pointers := setPtr w7Db.pointers "global" (some "A") }
        w7Lead w7A "global_round_robin" 0).2
    w7A "A" (by decide) rfl rfl (by decide) rfl (by decide)

/-- C6: for every routing key and non-empty eligibility list the
selector sorts by the lexicographic form of the caller id (the sorted
view is an ordered permutation of the input), picks index 0 when the
pointer holds no last value or the last value is absent from the sorted
list, otherwise index `(i + 1) % n` where `i` is the index of
`last_caller_id`, and stages `last_caller_id ← chosen.id`. -/
theorem C6_round_robin_selection (db : DB) (key : String) (eligible : List Caller)
    (h : eligible ≠ []) :
    List.Sorted callerLe (sortById eligible) ∧
    List.Perm (sortById eligible) eligible ∧
    ∃ chosen : Caller,
      nextRoundRobinCaller db key eligible =
        (some chosen, { db with pointers := setPtr db.pointers key (some chosen.id) }) ∧
      ((lookupPtr db.pointers key).getD none = none →
          (sortById eligible)[0]? = some chosen) ∧
      (∀ lastId, (lookupPtr db.pointers key).getD none = some lastId →
        ((sortById eligible).findIdx? (fun c => c.id == lastId) = none →
            (sortById eligible)[0]? = some chosen) ∧
        (∀ i, (sortById eligible).findIdx? (fun c => c.id == lastId) = some i →
            (sortById eligible)[(i + 1) % (sortById eligible).length]? = some chosen)) := by
  refine ⟨sortById_sorted eligible, sortById_perm eligible, ?_⟩
  have hs : sortById eligible ≠ [] := fun hnil => h ((sortById_eq_nil_iff eligible).mp hnil)
  obtain ⟨o, os, heq⟩ := List.exists_cons_of_ne_nil hs
  unfold nextRoundRobinCaller
  rw [heq]
  dsimp only
  cases hlast : (lookupPtr db.pointers key).getD none with
  | none =>
    refine ⟨o, rfl, fun _ => by simp, ?_⟩
    intro lastId hc
    exact absurd hc (by simp)
  | some lastId0 =>
    dsimp only
    cases hidx : (o :: os).findIdx? (fun c => c.id == lastId0) with
    | none =>
      refine ⟨o, rfl, fun hc => absurd hc (by simp), ?_⟩
      intro lastId hc
      obtain rfl : lastId0 = lastId := Option.some.inj hc
      refine ⟨fun _ => by simp, ?_⟩
      intro i hi
      rw [hidx] at hi
      exact absurd hi (by simp)
    | some i0 =>
      dsimp only
      refine ⟨(o :: os).getD ((i0 + 1) % (o :: os).length) o, rfl,
        fun hc => absurd hc (by simp), ?_⟩
      intro lastId hc
      obtain rfl : lastId0 = lastId := Option.some.inj hc
      constructor
      · intro hnone
        rw [hidx] at hnone
        exact absurd hnone (by simp)
      · intro i hi
        rw [hidx] at hi
        obtain rfl : i0 = i := Option.some.inj hi
        have hlen : (i0 + 1) % (o :: os).length < (o :: os).length :=
          Nat.mod_lt _ (by simp)
        rw [List.getD_eq_getElem?_getD, List.getElem?_eq_getElem hlen]
        rfl

/-- Two-caller database with a pre-seeded global pointer, used for C6's
witness. -/
def w6Db : DB :=
  { callers := [], callerStates := [], leads := [], assignments := [],
    pointers := [("global", some "A")], counters := fun _ _ => 0 }

/-- First eligible caller of C6's witness. -/
def w6A : Caller := { id := "A", name := "Ann", daily_limit := 0, status := CallerStatus.active }

/-- Second eligible caller of C6's witness. -/
def w6B : Caller := { id := "B", name := "Bob", daily_limit := 0, status := CallerStatus.active }

/-- Witness for C6, at a query-ordered (unsorted) eligibility list. -/
theorem C6_round_robin_selection_witness :
    ∃ chosen : Caller,
      nextRoundRobinCaller w6Db "global" [w6B, w6A] =
        (some chosen,
          { w6Db with pointers := setPtr w6Db.pointers "global" (some chosen.id) }) ∧
      ((lookupPtr w6Db.pointers "global").getD none = none →
          (sortById [w6B, w6A])[0]? = some chosen) ∧
      (∀ lastId, (lookupPtr w6Db.pointers "global").getD none = some lastId →
        ((sortById [w6B, w6A]).findIdx? (fun c => c.id == lastId) = none →
            (sortById [w6B, w6A])[0]? = some chosen) ∧
        (∀ i, (sortById [w6B, w6A]).findIdx? (fun c => c.id == lastId) = some i →
            (sortById [w6B, w6A])[(i + 1) % (sortById [w6B, w6A]).length]? = some chosen)) :=
  (C6_round_robin_selection w6Db "global" [w6B, w6A] (by decide)).2.2

/-- C5: a lead whose state has at least one active state-matched caller
that is dropped (with all its peers) by the daily-cap filter ends
unassigned — `caller_id` is null, so no global caller is selected. -/
theorem C5_capped_state_stays_unassigned (db : DB) (lead : Lead) (day : Nat) (s : String)
    (hs : lead.state = some s) (hne : s ≠ "")
    (hmatched : stateMatched db s ≠ [])
    (hcapped : applyDailyCapFilter db (stateMatched db s) day = []) :
    ∃ db2, assignLead db lead none none day =
      Except.ok (db2,
        { lead_id := lead.id, caller_id := none, day := day,
          assignment_reason := "unassigned_cap_reached",
          status := LAStatus.unassigned }) := by
  have hie : (stateMatched db s).isEmpty = false := by
    cases hm : stateMatched db s with
    | nil => exact absurd hm hmatched
    | cons a l => rfl
  have helig : eligibleCallersForState db lead.state = stateMatched db s := by
    rw [hs]
    simp [eligibleCallersForState, hne, hie]
  have hcap : applyDailyCapFilter db (eligibleCallersForState db lead.state) day = [] := by
    rw [helig]
    exact hcapped
  refine ⟨(unassignedOutcome db lead "unassigned_cap_reached" day).1, ?_⟩
  rw [assignLead_auto_empty db lead none day hcap]
  rfl

/-- Database for C5's witness: caller A is active and pinned to state X
but capped (limit 1, counter already 1); caller G is active, global and
unlimited. -/
def w5Db : DB :=
  { callers := [{ id := "A", name := "Ann", daily_limit := 1, status := CallerStatus.active },
                { id := "G", name := "Gus", daily_limit := 0, status := CallerStatus.active }],
    callerStates := [{ caller_id := "A", state := "X" }],
    leads := [{ id := 4, phone := "4", timestamp := 4, state := some "X" }],
    assignments := [], pointers := [], counters := fun _ _ => 1 }

/-- Lead already present in `w5Db`. -/
def w5Lead : Lead := { id := 4, phone := "4", timestamp := 4, state := some "X" }

/-- Witness for C5: the lead stays unassigned although the unlimited
global caller G is available. -/
theorem C5_capped_state_stays_unassigned_witness :
    ∃ db2, assignLead w5Db w5Lead none none 0 =
      Except.ok (db2,
        { lead_id := 4, caller_id := none, day := 0,
          assignment_reason := "unassigned_cap_reached",
          status := LAStatus.unassigned }) :=
  C5_capped_state_stays_unassigned w5Db w5Lead 0 "X" rfl (by decide) (by decide) (by decide)

/-- The `unassigned` flag update does not change the number of leads. -/
theorem markUnassigned_length (ls : List Lead) (lid : Nat) :
    (markUnassigned ls lid).length = ls.length := by
  simp [markUnassigned]

/-- Frame of every successful `assign_lead` call: exactly one
assignment row — the returned one — is appended, no lead row is created
or deleted, and the caller table is untouched. -/
theorem assignLead_ok_frame (db : DB) (lead : Lead) (f ro : Option String) (day : Nat)
    (db' : DB) (a : LeadAssignment)
    (h : assignLead db lead f ro day = Except.ok (db', a)) :
    db'.assignments = db.assignments ++ [a] ∧
    db'.leads.length = db.leads.length ∧
    db'.callers = db.callers := by
  cases f with
  | some cid =>
    cases hg : getCaller db cid with
    | none =>
      rw [assignLead_forced_missing db lead cid ro day hg] at h
      exact absurd h (by simp)
    | some c =>
      by_cases hst : c.status = CallerStatus.active
      · rw [assignLead_forced_active db lead cid ro day c hg hst] at h
        have hpair := (Except.ok.inj h).symm
        have ha : a = (commitAssignment db lead c (pyOrStr ro "manual_reassign") day).2 :=
          congrArg Prod.snd hpair
        have h1 : db'.assignments =
            db.assignments ++ [(commitAssignment db lead c (pyOrStr ro "manual_reassign") day).2] :=
          congrArg (fun x => (Prod.fst x).assignments) hpair
        have h2 : db'.leads.length = db.leads.length :=
          congrArg (fun x => (Prod.fst x).leads.length) hpair
        have h3 : db'.callers = db.callers :=
          congrArg (fun x => (Prod.fst x).callers) hpair
        rw [← ha] at h1
        exact ⟨h1, h2, h3⟩
      · rw [assignLead_forced_inactive db lead cid ro day c hg hst] at h
        exact absurd h (by simp)
  | none =>
    by_cases hcap : applyDailyCapFilter db (eligibleCallersForState db lead.state) day = []
    · rw [assignLead_auto_empty db lead ro day hcap] at h
      have hpair := (Except.ok.inj h).symm
      have ha : a = (unassignedOutcome db lead "unassigned_cap_reached" day).2 :=
        congrArg Prod.snd hpair
      have h1 : db'.assignments =
          db.assignments ++ [(unassignedOutcome db lead "unassigned_cap_reached" day).2] :=
        congrArg (fun x => (Prod.fst x).assignments) hpair
      have h2 : db'.leads.length = (markUnassigned db.leads lead.id).length :=
        congrArg (fun x => (Prod.fst x).leads.length) hpair
      have h3 : db'.callers = db.callers :=
        congrArg (fun x => (Prod.fst x).callers) hpair
      rw [← ha] at h1
      rw [markUnassigned_length] at h2
      exact ⟨h1, h2, h3⟩
    · obtain ⟨chosen, _, _, heq⟩ := assignLead_auto_nonempty db lead ro day hcap
      rw [heq] at h
      have hpair := (Except.ok.inj h).symm
      refine ⟨?_, congrArg (fun x => (Prod.fst x).leads.length) hpair,
        congrArg (fun x => (Prod.fst x).callers) hpair⟩
      have ha : a =
          (commitAssignment
            { db with pointers := setPtr db.pointers (routingKey db lead.state) (some chosen.id) }
            lead chosen
            (pyOrStr ro (if strStartsWith (routingKey db lead.state) "state:"
                         then "state_round_robin" else "global_round_robin")) day).2 :=
        congrArg Prod.snd hpair
      have h1 : db'.assignments = db.assignments ++
          [(commitAssignment
            { db with pointers := setPtr db.pointers (routingKey db lead.state) (some chosen.id) }
            lead chosen
            (pyOrStr ro (if strStartsWith (routingKey db lead.state) "state:"
                         then "state_round_robin" else "global_round_robin")) day).2] :=
        congrArg (fun x => (Prod.fst x).assignments) hpair
      rw [← ha] at h1
      exact h1

/-- Single-caller database used by C1's counterexample and witness. -/
def dupDb : DB :=
  { callers := [{ id := "A", name := "Ann", daily_limit := 0, status := CallerStatus.active }],
    callerStates := [], leads := [], assignments := [], pointers := [],
    counters := fun _ _ => 0 }

/-- Webhook payload submitted twice in C1's counterexample. -/
def dupPayload : WebhookPayload := { phone := "999", timestamp := 5 }

/-- State after the first webhook submission of `dupPayload`. -/
def dupDb1 : DB := (webhookOp dupDb dupPayload 1 0).1

/-- C1 counterexample: a second webhook call with the same
`(phone, timestamp)` reuses the lead (still one lead row) but is not a
no-op — it appends a second assignment row and bumps the counter from 1
to 2. -/
theorem C1_counterexample :
    (webhookOp dupDb1 dupPayload 2 0).1.leads.length = 1 ∧
    dupDb1.assignments.length = 1 ∧
    (webhookOp dupDb1 dupPayload 2 0).1.assignments.length = 2 ∧
    dupDb1.counters "A" 0 = 1 ∧
    (webhookOp dupDb1 dupPayload 2 0).1.counters "A" 0 = 2 := by
  decide

/-- C1 amended: a repeated webhook call creates no new `Lead` row and
reuses the existing lead, but re-runs the engine — exactly one new
`LeadAssignment` row is appended and the response mirrors that new
assignment, not necessarily the existing one. -/
theorem C1_amended_duplicate_reruns_engine (db : DB) (p : WebhookPayload)
    (newId day : Nat) (l : Lead)
    (hfound : findLeadByKey db p.phone p.timestamp = some l) :
    (webhookOp db p newId day).1.leads.length = db.leads.length ∧
    (webhookOp db p newId day).1.assignments =
      db.assignments ++ [(webhookOp db p newId day).2] := by
  have hingest : ingestLead db p newId = (db, l) := by
    unfold ingestLead
    rw [hfound]
  unfold webhookOp
  rw [hingest]
  dsimp only
  obtain ⟨r, hr⟩ := assignLead_none_ok db l none day
  rw [hr]
  obtain ⟨h1, h2, _⟩ := assignLead_ok_frame db l none none day r.1 r.2 hr
  exact ⟨h2, h1⟩

/-- The lead created by the first webhook call in `dupDb1`. -/
def dupLead : Lead := { id := 1, phone := "999", timestamp := 5 }

/-- Witness for C1's amended claim at the state after the first
submission. -/
theorem C1_amended_duplicate_reruns_engine_witness :
    (webhookOp dupDb1 dupPayload 2 0).1.leads.length = dupDb1.leads.length ∧
    (webhookOp dupDb1 dupPayload 2 0).1.assignments =
      dupDb1.assignments ++ [(webhookOp dupDb1 dupPayload 2 0).2] :=
  C1_amended_duplicate_reruns_engine dupDb1 dupPayload 2 0 dupLead (by decide)

/-- C2 counterexample: with only a paused caller the eligibility list
is empty already before the cap filter, yet the recorded reason is
`unassigned_cap_reached`, not `unassigned_no_eligible` as the claim
requires. -/
theorem C2_counterexample :
    eligibleCallersForState pausedDb pausedLead.state = [] ∧
    (assignLead pausedDb pausedLead none none 0).toOption.map (fun r => r.2) =
      some { lead_id := 7, caller_id := none, day := 0,
             assignment_reason := "unassigned_cap_reached",
             status := LAStatus.unassigned } ∧
    "unassigned_cap_reached" ≠ "unassigned_no_eligible" := by
  decide

/-- C2 amended: whenever the post-cap eligibility list is empty — in
particular also when it was already empty before the cap filter because
no caller is active — the unassigned outcome carries reason
`unassigned_cap_reached` and `caller_id` null; the reason
`unassigned_no_eligible` is never emitted (its branch is
unreachable). -/
theorem C2_amended_reason_codes (db : DB) (lead : Lead) (day : Nat) :
    (applyDailyCapFilter db (eligibleCallersForState db lead.state) day = [] →
      ∃ db2, assignLead db lead none none day =
        Except.ok (db2,
          { lead_id := lead.id, caller_id := none, day := day,
            assignment_reason := "unassigned_cap_reached",
            status := LAStatus.unassigned })) ∧
    (∀ db2 a, assignLead db lead none none day = Except.ok (db2, a) →
      a.assignment_reason ≠ "unassigned_no_eligible") := by
  constructor
  · intro hcap
    refine ⟨(unassignedOutcome db lead "unassigned_cap_reached" day).1, ?_⟩
    rw [assignLead_auto_empty db lead none day hcap]
    rfl
  · intro db2 a h
    by_cases hcap : applyDailyCapFilter db (eligibleCallersForState db lead.state) day = []
    · rw [assignLead_auto_empty db lead none day hcap] at h
      have ha : a.assignment_reason =
          (unassignedOutcome db lead "unassigned_cap_reached" day).2.assignment_reason :=
        congrArg (fun x => (Prod.snd x).assignment_reason) (Except.ok.inj h).symm
      rw [ha]
      show ("unassigned_cap_reached" : String) ≠ "unassigned_no_eligible"
      decide
    · obtain ⟨chosen, _, _, heq⟩ := assignLead_auto_nonempty db lead none day hcap
      rw [heq] at h
      have ha : a.assignment_reason =
          pyOrStr none (if strStartsWith (routingKey db lead.state) "state:"
                        then "state_round_robin" else "global_round_robin") :=
        congrArg (fun x => (Prod.snd x).assignment_reason) (Except.ok.inj h).symm
      rw [ha]
      by_cases hkey : strStartsWith (routingKey db lead.state) "state:" <;>
        simp [pyOrStr, hkey]

/-- Witness for C2's amended claim at the paused-only database. -/
theorem C2_amended_reason_codes_witness :
    ∃ db2, assignLead pausedDb pausedLead none none 0 =
      Except.ok (db2,
        { lead_id := 7, caller_id := none, day := 0,
          assignment_reason := "unassigned_cap_reached",
          status := LAStatus.unassigned }) :=
  (C2_amended_reason_codes pausedDb pausedLead 0).1 (by decide)

/-- Database for C3's counterexample: one active caller and one
existing lead. -/
def reassignDb : DB :=
  { callers := [{ id := "A", name := "Ann", daily_limit := 0, status := CallerStatus.active }],
    callerStates := [], leads := [{ id := 7, phone := "1", timestamp := 1 }],
    assignments := [], pointers := [], counters := fun _ _ => 0 }

/-- C3 counterexample: a reassign request with `caller_id` null runs
the automatic pipeline (the caller is chosen by round robin) but the
recorded reason is `manual_reassign`, not a round-robin reason — the
endpoint passes `reason_override="manual_reassign"` unconditionally and
the engine applies the override in automatic mode too. -/
theorem C3_counterexample :
    (reassignOp reassignDb 7 none 0).assignments.map
        (fun a => (a.assignment_reason, a.caller_id, a.status)) =
      [("manual_reassign", some "A", LAStatus.assigned)] ∧
    "manual_reassign" ≠ "state_round_robin" ∧
    "manual_reassign" ≠ "global_round_robin" := by
  decide

/-- C3 amended: with no override the automatic path does record
`state_round_robin` for a state-scoped key and `global_round_robin` for
the global key; but a non-empty `reason_override` applies in automatic
mode as well, and the reassign endpoint always passes
`"manual_reassign"`, so a reassign with `caller_id` null goes through
the automatic pipeline yet its assigned row carries reason
`manual_reassign`. -/
theorem C3_amended_reason_override (db : DB) :
    (∀ (lead : Lead) (day : Nat) (db2 : DB) (a : LeadAssignment),
      assignLead db lead none none day = Except.ok (db2, a) →
      a.status = LAStatus.assigned →
      a.assignment_reason =
        (if strStartsWith (routingKey db lead.state) "state:" then "state_round_robin"
         else "global_round_robin")) ∧
    (∀ (leadId day : Nat) (lead : Lead),
      db.leads.find? (fun l => l.id == leadId) = some lead →
      ∃ a, (reassignOp db leadId none day).assignments = db.assignments ++ [a] ∧
        (a.status = LAStatus.assigned → a.assignment_reason = "manual_reassign")) := by
  constructor
  · intro lead day db2 a h hst
    by_cases hcap : applyDailyCapFilter db (eligibleCallersForState db lead.state) day = []
    · rw [assignLead_auto_empty db lead none day hcap] at h
      have ha : a.status =
          (unassignedOutcome db lead "unassigned_cap_reached" day).2.status :=
        congrArg (fun x => (Prod.snd x).status) (Except.ok.inj h).symm
      rw [ha] at hst
      have himp : LAStatus.unassigned = LAStatus.assigned := hst
      exact absurd himp (by decide)
    · obtain ⟨chosen, _, _, heq⟩ := assignLead_auto_nonempty db lead none day hcap
      rw [heq] at h
      have ha : a.assignment_reason =
          pyOrStr none (if strStartsWith (routingKey db lead.state) "state:"
                        then "state_round_robin" else "global_round_robin") :=
        congrArg (fun x => (Prod.snd x).assignment_reason) (Except.ok.inj h).symm
      rw [ha]
      rfl
  · intro leadId day lead hfind
    obtain ⟨r, hr⟩ := assignLead_none_ok db lead (some "manual_reassign") day
    have hres : reassignOp db leadId none day = r.1 := by
      unfold reassignOp
      rw [hfind]
      dsimp only
      rw [hr]
    obtain ⟨h1, _, _⟩ :=
      assignLead_ok_frame db lead none (some "manual_reassign") day r.1 r.2 hr
    refine ⟨r.2, by rw [hres]; exact h1, ?_⟩
    intro hst
    by_cases hcap : applyDailyCapFilter db (eligibleCallersForState db lead.state) day = []
    · rw [assignLead_auto_empty db lead (some "manual_reassign") day hcap] at hr
      have ha : r.2.status =
          (unassignedOutcome db lead "unassigned_cap_reached" day).2.status :=
        congrArg (fun x => (Prod.snd x).status) (Except.ok.inj hr).symm
      rw [ha] at hst
      have himp : LAStatus.unassigned = LAStatus.assigned := hst
      exact absurd himp (by decide)
    · obtain ⟨chosen, _, _, heq⟩ :=
        assignLead_auto_nonempty db lead (some "manual_reassign") day hcap
      rw [heq] at hr
      have ha : r.2.assignment_reason =
          pyOrStr (some "manual_reassign")
            (if strStartsWith (routingKey db lead.state) "state:"
             then "state_round_robin" else "global_round_robin") :=
        congrArg (fun x => (Prod.snd x).assignment_reason) (Except.ok.inj hr).symm
      rw [ha]
      simp [pyOrStr]

/-- Witness for C3's amended claim: the reassign-with-null path at a
concrete database. -/
theorem C3_amended_reason_override_witness :
    ∃ a, (reassignOp reassignDb 7 none 0).assignments = reassignDb.assignments ++ [a] ∧
      (a.status = LAStatus.assigned → a.assignment_reason = "manual_reassign") :=
  (C3_amended_reason_override reassignDb).2 7 0
    { id := 7, phone := "1", timestamp := 1 } (by decide)

/-- Database for C4's counterexample: a paused caller P is pinned to
state X; the only active caller G has no states. -/
def c4Db : DB :=
  { callers := [{ id := "G", name := "Gus", daily_limit := 0, status := CallerStatus.active },
                { id := "P", name := "Paula", daily_limit := 0, status := CallerStatus.paused }],
    callerStates := [{ caller_id := "P", state := "X" }],
    leads := [], assignments := [], pointers := [], counters := fun _ _ => 0 }

/-- C4 counterexample: no active caller matches state X, so the
candidates are all active callers — yet the routing key is `state:X`,
not `global`, because `has_state_specific` counts the paused caller's
`CallerState` row. -/
theorem C4_counterexample :
    stateMatched c4Db "X" = [] ∧
    eligibleCallersForState c4Db (some "X") = activeCallers c4Db ∧
    (∃ r ∈ c4Db.callerStates, r.state = "X") ∧
    routingKey c4Db (some "X") = "state:X" ∧
    "state:X" ≠ "global" := by
  decide

/-- C4 amended: the candidates are the active state-matched callers
when at least one exists and all active callers otherwise; the routing
key, however, is state-scoped whenever any `CallerState` row — of any
caller, active or paused — carries the lead's state, and `global` only
when no such row exists at all. -/
theorem C4_amended_candidates_and_key (db : DB) (s : String) (hne : s ≠ "") :
    (∀ c, c ∈ stateMatched db s ↔
      (c ∈ db.callers ∧ c.status = CallerStatus.active ∧
        ∃ r ∈ db.callerStates, r.caller_id = c.id ∧ r.state = s)) ∧
    (stateMatched db s ≠ [] →
      eligibleCallersForState db (some s) = stateMatched db s ∧
      routingKey db (some s) = "state:" ++ s) ∧
    (stateMatched db s = [] →
      eligibleCallersForState db (some s) = activeCallers db) ∧
    ((∃ r ∈ db.callerStates, r.state = s) → routingKey db (some s) = "state:" ++ s) ∧
    ((¬ ∃ r ∈ db.callerStates, r.state = s) → routingKey db (some s) = "global") := by
  have htruthy : stateTruthy (some s) = true := by
    simp [stateTruthy, hne]
  have hany : db.callerStates.any (fun r => some r.state == some s) = true ↔
      ∃ r ∈ db.callerStates, r.state = s := by
    simp [List.any_eq_true]
  have hkey_of : (∃ r ∈ db.callerStates, r.state = s) →
      routingKey db (some s) = "state:" ++ s := by
    intro hex
    have hss : hasStateSpecific db (some s) = true := by
      simp only [hasStateSpecific, htruthy, Bool.true_and]
      exact hany.mpr hex
    simp [routingKey, hss]
  have hkey_not : (¬ ∃ r ∈ db.callerStates, r.state = s) →
      routingKey db (some s) = "global" := by
    intro hnex
    have hb : db.callerStates.any (fun r => some r.state == some s) = false := by
      cases hb : db.callerStates.any (fun r => some r.state == some s) with
      | true => exact absurd (hany.mp hb) hnex
      | false => rfl
    have hss : hasStateSpecific db (some s) = false := by
      unfold hasStateSpecific
      rw [htruthy, hb]
      rfl
    simp [routingKey, hss]
  refine ⟨fun c => mem_stateMatched db s c, ?_, ?_, hkey_of, hkey_not⟩
  · intro hne2
    have hie : (stateMatched db s).isEmpty = false := by
      cases hm : stateMatched db s with
      | nil => exact absurd hm hne2
      | cons a l => rfl
    constructor
    · simp [eligibleCallersForState, hne, hie]
    · obtain ⟨c, hc⟩ := List.exists_mem_of_ne_nil _ hne2
      obtain ⟨_, _, r, hr, _, hrs⟩ := (mem_stateMatched db s c).mp hc
      exact hkey_of ⟨r, hr, hrs⟩
  · intro hnil
    have hie : (stateMatched db s).isEmpty = true := by
      rw [hnil]
      rfl
    simp [eligibleCallersForState, hne, hie]

/-- Witness for C4's amended claim: at the counterexample database the
key stays state-scoped although only a paused caller carries the
state. -/
theorem C4_amended_candidates_and_key_witness :
    routingKey c4Db (some "X") = "state:" ++ "X" :=
  (C4_amended_candidates_and_key c4Db "X" (by decide)).2.2.2.1 (by decide)

end Bloc
